import Mathlib

/-!
# Platform bootstrap of quran_hadith

A shallow embedding of the two bootstrap translation units of the repository:

* `linux/main.cc`: the process entry point, which forces the numeric locale
  to `"C"` and hands control to the GTK application object;
* `windows/flutter/generated_plugin_registrant.cc`: the generated plugin
  registration stub.

Both functions are straight-line sequences of calls into the C library and
the host framework, so both are written over a record of the functions they
call and thread a state through them.  The C library calls (`setenv`,
`setlocale`) are modelled on an explicit process state; the framework entry
points are parameters that may read and change the whole state.  The order
of the externally visible actions is read from what a recording callee
receives: the functions themselves keep no log.
-/

namespace QuranHadith

/-! ## Process state of `linux/main.cc` -/

/-- The process environment (`environ`): its `NAME=value` entries, in order. -/
abbrev Environ := List (String × String)

/-- The C library `getenv`: the value of the first entry called `name`. -/
def getenv : Environ → String → Option String
  | [], _ => none
  | (n, v) :: rest, name => if n = name then some v else getenv rest name

/-- Replace the value of the first entry called `name` (the entry `setenv`
rewrites when it is allowed to overwrite). -/
def putenvFirst : Environ → String → String → Environ
  | [], _, _ => []
  | (n, v) :: rest, name, value =>
    if n = name then (n, value) :: rest else (n, v) :: putenvFirst rest name value

/-- The part of the process state that `main` itself touches: the environment
and the name of the current locale of the `LC_NUMERIC` category. -/
structure Process where
  environ : Environ
  lc_numeric : String
  deriving DecidableEq, Repr

/-- The C library `setenv(name, value, overwrite)`.  It fails with `-1`
(`EINVAL`) on an empty name or a name holding `=`, and leaves the
environment alone.  Otherwise it returns `0`: a variable that exists is kept
when `overwrite` is `0` and rewritten when it is not, and a variable that
does not exist is added. -/
def setenv (name value : String) (overwrite : Int) (p : Process) : Int × Process :=
  if name.data = [] ∨ '=' ∈ name.data then (-1, p)
  else
    match getenv p.environ name with
    | some _ =>
      if overwrite = 0 then (0, p)
      else (0, { p with environ := putenvFirst p.environ name value })
    | none => (0, { p with environ := p.environ ++ [(name, value)] })

/-- The locale name that `setlocale(LC_NUMERIC, "")` selects from the
environment: `LC_ALL`, then `LC_NUMERIC`, then `LANG`, the first that is set
and not empty, and `"C"` when none is. -/
def numericFromEnviron (env : Environ) : String :=
  match (getenv env "LC_ALL").filter (fun v => v ≠ "") with
  | some v => v
  | none =>
    match (getenv env "LC_NUMERIC").filter (fun v => v ≠ "") with
    | some v => v
    | none =>
      match (getenv env "LANG").filter (fun v => v ≠ "") with
      | some v => v
      | none => "C"

/-- The C library `setlocale(LC_NUMERIC, locale)`.  `installed` tells which
locale names the system can load; `"C"` and `"POSIX"` always exist.  The
empty name asks for the locale named by the environment.  On success the
category is switched and its new name returned; on failure the result is
`none` (a null pointer) and the locale is unchanged. -/
def setlocale_LC_NUMERIC (installed : String → Bool) (locale : String) (p : Process) :
    Option String × Process :=
  let wanted := if locale = "" then numericFromEnviron p.environ else locale
  if wanted = "C" ∨ wanted = "POSIX" ∨ installed wanted = true then
    (some wanted, { p with lc_numeric := wanted })
  else (none, p)

/-- The first two statements of `main`: `setenv("LC_NUMERIC", "C", 0)`
followed by `setlocale(LC_NUMERIC, "C")`, both results discarded. -/
def localeSetup (installed : String → Bool) (p : Process) : Process :=
  (setlocale_LC_NUMERIC installed "C" (setenv "LC_NUMERIC" "C" 0 p).2).2

/-! ## The functions `main` calls -/

/-- The framework entry points `main` calls.  They are not part of the
translation unit, so they are parameters: each may read and change the
process state and the framework's own state `σ`.  Object pointers are
numbers.  `autoptr_cleanup` is what the `g_autoptr` declaration of `app`
runs on the pointer when `main`'s scope is left. -/
structure Framework (σ : Type) where
  my_application_new : Process × σ → Nat × (Process × σ)
  g_application_run : Nat → Int → List String → Process × σ → Int × (Process × σ)
  autoptr_cleanup : Nat → Process × σ → Process × σ

/-- Everything `main` calls, acting on a world `ω`: the two C library
functions and the three framework entry points. -/
structure Platform (ω : Type) where
  setenv : String → String → Int → ω → Int × ω
  setlocale_LC_NUMERIC : String → ω → Option String × ω
  my_application_new : ω → Nat × ω
  g_application_run : Nat → Int → List String → ω → Int × ω
  autoptr_cleanup : Nat → ω → ω

/-- The platform `main` runs on: the C library acting on the process state,
next to a framework `fw`. -/
def linux {σ : Type} (installed : String → Bool) (fw : Framework σ) :
    Platform (Process × σ) where
  setenv := fun name value overwrite w =>
    ((QuranHadith.setenv name value overwrite w.1).1,
      ((QuranHadith.setenv name value overwrite w.1).2, w.2))
  setlocale_LC_NUMERIC := fun locale w =>
    ((QuranHadith.setlocale_LC_NUMERIC installed locale w.1).1,
      ((QuranHadith.setlocale_LC_NUMERIC installed locale w.1).2, w.2))
  my_application_new := fw.my_application_new
  g_application_run := fw.g_application_run
  autoptr_cleanup := fw.autoptr_cleanup

/-- What a run of `main` leaves behind: the value it returns and the final
world. -/
structure MainResult (ω : Type) where
  status : Int
  final : ω

/-- The function `main` of `linux/main.cc`, statement by statement.
`G_APPLICATION(app)` is a pointer cast and keeps the pointer. -/
def main {ω : Type} (sys : Platform ω) (argc : Int) (argv : List String) (w : ω) :
    MainResult ω :=
  -- setenv("LC_NUMERIC", "C", /*overwrite=*/0);
  let w1 := (sys.setenv "LC_NUMERIC" "C" 0 w).2
  -- setlocale(LC_NUMERIC, "C");
  let w2 := (sys.setlocale_LC_NUMERIC "C" w1).2
  -- g_autoptr(MyApplication) app = my_application_new();
  let r3 := sys.my_application_new w2
  let app := r3.1
  -- return g_application_run(G_APPLICATION(app), argc, argv);
  let r4 := sys.g_application_run app argc argv r3.2
  -- leaving the scope of `app`
  let w5 := sys.autoptr_cleanup app r4.2
  { status := r4.1, final := w5 }

/-! ## Observing the calls of `main` -/

/-- A call received by the platform, with its arguments. -/
inductive Call where
  | setenv (name value : String) (overwrite : Int)
  | setlocale_LC_NUMERIC (locale : String)
  | my_application_new
  | g_application_run (app : Nat) (argc : Int) (argv : List String)
  | autoptr_cleanup (app : Nat)
  deriving DecidableEq, Repr

/-- A received call together with the world in which it was received. -/
structure Event (ω : Type) where
  call : Call
  before : ω

/-- Whether a call goes to the host framework rather than the C library. -/
def Call.isFramework : Call → Bool
  | .setenv _ _ _ => false
  | .setlocale_LC_NUMERIC _ => false
  | .my_application_new => true
  | .g_application_run _ _ _ => true
  | .autoptr_cleanup _ => true

/-- Whether a call is a call of `g_application_run`. -/
def Call.isRun : Call → Bool
  | .g_application_run _ _ _ => true
  | _ => false

/-- A platform that behaves as `sys` does and, in front of its world, keeps
the list of the calls it has received, each with the world it was received
in.  Only a function that is really called adds to the list. -/
def Platform.recording {ω : Type} (sys : Platform ω) : Platform (List (Event ω) × ω) where
  setenv := fun name value overwrite w =>
    ((sys.setenv name value overwrite w.2).1,
      (w.1 ++ [⟨.setenv name value overwrite, w.2⟩], (sys.setenv name value overwrite w.2).2))
  setlocale_LC_NUMERIC := fun locale w =>
    ((sys.setlocale_LC_NUMERIC locale w.2).1,
      (w.1 ++ [⟨.setlocale_LC_NUMERIC locale, w.2⟩], (sys.setlocale_LC_NUMERIC locale w.2).2))
  my_application_new := fun w =>
    ((sys.my_application_new w.2).1,
      (w.1 ++ [⟨.my_application_new, w.2⟩], (sys.my_application_new w.2).2))
  g_application_run := fun app argc argv w =>
    ((sys.g_application_run app argc argv w.2).1,
      (w.1 ++ [⟨.g_application_run app argc argv, w.2⟩],
        (sys.g_application_run app argc argv w.2).2))
  autoptr_cleanup := fun app w =>
    (w.1 ++ [⟨.autoptr_cleanup app, w.2⟩], sys.autoptr_cleanup app w.2)

/-- The calls the platform receives during a run of `main` from the process
state `p` and the framework state `s`, in order. -/
def mainCalls {σ : Type} (installed : String → Bool) (fw : Framework σ)
    (argc : Int) (argv : List String) (p : Process) (s : σ) : List (Event (Process × σ)) :=
  (main (linux installed fw).recording argc argv ([], (p, s))).final.1

/-- A stand-in for the host framework, in the manner of GTK: creating the
application object only allocates a pointer, and the run loop first
initialises the locale from the environment (as `setlocale(LC_ALL, "")`
does for the numeric category) and then exits with `argc` plus the length
of `argv`. -/
def sampleFramework : Framework Nat where
  my_application_new := fun w => (w.2 + 1, (w.1, w.2 + 1))
  g_application_run := fun _ argc argv w =>
    (argc + argv.length, ((setlocale_LC_NUMERIC (fun _ => true) "" w.1).2, w.2))
  autoptr_cleanup := fun _ w => (w.1, w.2 - 1)

/-- A process started with `LC_NUMERIC=de_DE.UTF-8` in its environment and
the German numeric locale active. -/
def sampleProcess : Process :=
  { environ := [("LANG", "en_US.UTF-8"), ("LC_NUMERIC", "de_DE.UTF-8")],
    lc_numeric := "de_DE.UTF-8" }

/-! ## `windows/flutter/generated_plugin_registrant.cc` -/

/-- The registration entry points that `RegisterPlugins` calls, one for each
plugin header it includes. -/
inductive Entry where
  | BitsdojoWindowPluginRegisterWithRegistrar
  | ConnectivityPlusWindowsPluginRegisterWithRegistrar
  | DesktopWindowPluginRegisterWithRegistrar
  | HotkeyManagerWindowsPluginCApiRegisterWithRegistrar
  | PlatformDeviceIdWindowsPluginRegisterWithRegistrar
  | ScreenRetrieverWindowsPluginCApiRegisterWithRegistrar
  | SharePlusWindowsPluginCApiRegisterWithRegistrar
  | UrlLauncherWindowsRegisterWithRegistrar
  | WindowManagerPluginRegisterWithRegistrar
  deriving DecidableEq, Repr

/-- The C symbol of a registration entry point. -/
def Entry.symbol : Entry → String
  | .BitsdojoWindowPluginRegisterWithRegistrar =>
    "BitsdojoWindowPluginRegisterWithRegistrar"
  | .ConnectivityPlusWindowsPluginRegisterWithRegistrar =>
    "ConnectivityPlusWindowsPluginRegisterWithRegistrar"
  | .DesktopWindowPluginRegisterWithRegistrar =>
    "DesktopWindowPluginRegisterWithRegistrar"
  | .HotkeyManagerWindowsPluginCApiRegisterWithRegistrar =>
    "HotkeyManagerWindowsPluginCApiRegisterWithRegistrar"
  | .PlatformDeviceIdWindowsPluginRegisterWithRegistrar =>
    "PlatformDeviceIdWindowsPluginRegisterWithRegistrar"
  | .ScreenRetrieverWindowsPluginCApiRegisterWithRegistrar =>
    "ScreenRetrieverWindowsPluginCApiRegisterWithRegistrar"
  | .SharePlusWindowsPluginCApiRegisterWithRegistrar =>
    "SharePlusWindowsPluginCApiRegisterWithRegistrar"
  | .UrlLauncherWindowsRegisterWithRegistrar =>
    "UrlLauncherWindowsRegisterWithRegistrar"
  | .WindowManagerPluginRegisterWithRegistrar =>
    "WindowManagerPluginRegisterWithRegistrar"

/-- All registration entry points. -/
def Entry.all : List Entry :=
  [ .BitsdojoWindowPluginRegisterWithRegistrar,
    .ConnectivityPlusWindowsPluginRegisterWithRegistrar,
    .DesktopWindowPluginRegisterWithRegistrar,
    .HotkeyManagerWindowsPluginCApiRegisterWithRegistrar,
    .PlatformDeviceIdWindowsPluginRegisterWithRegistrar,
    .ScreenRetrieverWindowsPluginCApiRegisterWithRegistrar,
    .SharePlusWindowsPluginCApiRegisterWithRegistrar,
    .UrlLauncherWindowsRegisterWithRegistrar,
    .WindowManagerPluginRegisterWithRegistrar ]

/-- The host side of `RegisterPlugins`: the registry's method
`GetRegistrarForPlugin`, which returns a registrar handle (a number) for a
plugin name, and the plugins' registration entry points.  Neither is part of
the translation unit, so both are parameters acting on a state `ρ` of the
engine. -/
structure Host (ρ : Type) where
  GetRegistrarForPlugin : String → ρ → Nat × ρ
  RegisterWithRegistrar : Entry → Nat → ρ → ρ

/-- One statement `<entry>(registry->GetRegistrarForPlugin("<name>"));`: the
argument is evaluated first, then the entry point is called on its value in
the state the evaluation left. -/
def registerWith {ρ : Type} (host : Host ρ) (entry : Entry) (name : String) (s : ρ) : ρ :=
  let r := host.GetRegistrarForPlugin name s
  host.RegisterWithRegistrar entry r.1 r.2

/-- The function `RegisterPlugins`, statement by statement. -/
def RegisterPlugins {ρ : Type} (host : Host ρ) (s : ρ) : ρ :=
  s
  |> registerWith host .BitsdojoWindowPluginRegisterWithRegistrar
      "BitsdojoWindowPlugin"
  |> registerWith host .ConnectivityPlusWindowsPluginRegisterWithRegistrar
      "ConnectivityPlusWindowsPlugin"
  |> registerWith host .DesktopWindowPluginRegisterWithRegistrar
      "DesktopWindowPlugin"
  |> registerWith host .HotkeyManagerWindowsPluginCApiRegisterWithRegistrar
      "HotkeyManagerWindowsPluginCApi"
  |> registerWith host .PlatformDeviceIdWindowsPluginRegisterWithRegistrar
      "PlatformDeviceIdWindowsPlugin"
  |> registerWith host .ScreenRetrieverWindowsPluginCApiRegisterWithRegistrar
      "ScreenRetrieverWindowsPluginCApi"
  |> registerWith host .SharePlusWindowsPluginCApiRegisterWithRegistrar
      "SharePlusWindowsPluginCApi"
  |> registerWith host .UrlLauncherWindowsRegisterWithRegistrar
      "UrlLauncherWindows"
  |> registerWith host .WindowManagerPluginRegisterWithRegistrar
      "WindowManagerPlugin"

/-! ## Observing the calls of `RegisterPlugins` -/

/-- A call received by the host: a request for a registrar, with the state
it was received in and the handle returned, or a call of a registration
entry point, with its argument and the state it was received in. -/
inductive RegCall (ρ : Type) where
  | GetRegistrarForPlugin (name : String) (before : ρ) (registrar : Nat)
  | RegisterWithRegistrar (entry : Entry) (registrar : Nat) (before : ρ)

/-- A host that behaves as `host` does and, in front of its state, keeps the
list of the calls it has received.  Only a function that is really called
adds to the list. -/
def Host.recording {ρ : Type} (host : Host ρ) : Host (List (RegCall ρ) × ρ) where
  GetRegistrarForPlugin := fun name w =>
    ((host.GetRegistrarForPlugin name w.2).1,
      (w.1 ++ [.GetRegistrarForPlugin name w.2 (host.GetRegistrarForPlugin name w.2).1],
        (host.GetRegistrarForPlugin name w.2).2))
  RegisterWithRegistrar := fun entry registrar w =>
    (w.1 ++ [.RegisterWithRegistrar entry registrar w.2],
      host.RegisterWithRegistrar entry registrar w.2)

/-- The calls the host receives during a run of `RegisterPlugins` from the
state `s`, in order. -/
def registerCalls {ρ : Type} (host : Host ρ) (s : ρ) : List (RegCall ρ) :=
  (RegisterPlugins host.recording ([], s)).1

/-- The names passed to `GetRegistrarForPlugin` in a list of calls, in
order. -/
def requestedNames {ρ : Type} : List (RegCall ρ) → List String
  | [] => []
  | .GetRegistrarForPlugin name _ _ :: rest => name :: requestedNames rest
  | .RegisterWithRegistrar _ _ _ :: rest => requestedNames rest

/-- The entry points called in a list of calls, in order. -/
def calledEntries {ρ : Type} : List (RegCall ρ) → List Entry
  | [] => []
  | .GetRegistrarForPlugin _ _ _ :: rest => calledEntries rest
  | .RegisterWithRegistrar entry _ _ :: rest => entry :: calledEntries rest

/-- A registrar request directly followed by a registration call: the name
requested, the state of the request, the handle obtained, the entry point
called, the handle passed to it and the state it was called in. -/
structure Registration (ρ : Type) where
  name : String
  before : ρ
  obtained : Nat
  entry : Entry
  passed : Nat
  calledIn : ρ

/-- Read a list of calls as a sequence of registrations: a request for a
registrar and a registration call, in turn.  A list of any other shape is
refused. -/
def registrations {ρ : Type} : List (RegCall ρ) → Option (List (Registration ρ))
  | [] => some []
  | .GetRegistrarForPlugin name before obtained ::
      .RegisterWithRegistrar entry passed calledIn :: rest =>
    (registrations rest).map (fun rs => ⟨name, before, obtained, entry, passed, calledIn⟩ :: rs)
  | _ => none

/-- Registrations follow one thread of states from `s` to `t`: each request
is made in the current state, its entry point is called on the handle the
request returned and in the state the request left, and the next request is
made in the state that call left; `t` is the state the last call left. -/
def threadedTo {ρ : Type} (host : Host ρ) : ρ → List (Registration ρ) → ρ → Prop
  | s, [], t => t = s
  | s, r :: rest, t =>
    r.before = s ∧
    r.obtained = (host.GetRegistrarForPlugin r.name s).1 ∧
    r.passed = r.obtained ∧
    r.calledIn = (host.GetRegistrarForPlugin r.name s).2 ∧
    threadedTo host (host.RegisterWithRegistrar r.entry r.passed r.calledIn) rest t

/-- What holds of a recording host's world `w` on the way from the state `s`
with no call received: its state is `t`, and the calls received so far are
registrations along one thread of states from `s` to `t`, for the names
`ns` and the entry points `es`, each entry point with the symbol that its
name extends by `RegisterWithRegistrar`. -/
def Recorded {ρ : Type} (host : Host ρ) (s : ρ) (w : List (RegCall ρ) × ρ) (t : ρ)
    (ns : List String) (es : List Entry) : Prop :=
  w.2 = t ∧
  requestedNames w.1 = ns ∧
  calledEntries w.1 = es ∧
  ∃ rs, registrations w.1 = some rs ∧
    threadedTo host s rs t ∧
    rs.map (fun r => r.name) = ns ∧
    rs.map (fun r => r.entry) = es ∧
    ∀ r ∈ rs, r.entry.symbol = r.name ++ "RegisterWithRegistrar"

/-! ## Lemmas on the C library model -/

theorem getenv_append_of_some (env : Environ) (name v : String) (extra : Environ)
    (h : getenv env name = some v) : getenv (env ++ extra) name = some v := by
  induction env with
  | nil => simp [getenv] at h
  | cons e rest ih =>
    obtain ⟨n, w⟩ := e
    by_cases hn : n = name
    · simpa [getenv, hn] using h
    · simp only [List.cons_append, getenv, hn, if_false] at h ⊢
      exact ih h

theorem getenv_append_of_none (env : Environ) (name : String) (extra : Environ)
    (h : getenv env name = none) : getenv (env ++ extra) name = getenv extra name := by
  induction env with
  | nil => rfl
  | cons e rest ih =>
    obtain ⟨n, w⟩ := e
    by_cases hn : n = name
    · simp [getenv, hn] at h
    · simp only [List.cons_append, getenv, hn, if_false] at h ⊢
      exact ih h

theorem getenv_append_other (env : Environ) (name other v : String) (h : other ≠ name) :
    getenv (env ++ [(other, v)]) name = getenv env name := by
  induction env with
  | nil => simp [getenv, h]
  | cons e rest ih =>
    obtain ⟨n, w⟩ := e
    by_cases hn : n = name
    · simp [getenv, hn]
    · simp only [List.cons_append, getenv, hn, if_false]
      exact ih

theorem setenv_LC_NUMERIC_eq (p : Process) :
    setenv "LC_NUMERIC" "C" 0 p =
      (0, match getenv p.environ "LC_NUMERIC" with
          | some _ => p
          | none => { p with environ := p.environ ++ [("LC_NUMERIC", "C")] }) := by
  unfold setenv
  rw [if_neg (by decide)]
  cases getenv p.environ "LC_NUMERIC" <;> simp

theorem setlocale_C_eq (installed : String → Bool) (p : Process) :
    setlocale_LC_NUMERIC installed "C" p = (some "C", { p with lc_numeric := "C" }) := by
  simp [setlocale_LC_NUMERIC]

theorem localeSetup_eq (installed : String → Bool) (p : Process) :
    localeSetup installed p =
      { environ := match getenv p.environ "LC_NUMERIC" with
          | some _ => p.environ
          | none => p.environ ++ [("LC_NUMERIC", "C")],
        lc_numeric := "C" } := by
  unfold localeSetup
  rw [setlocale_C_eq, setenv_LC_NUMERIC_eq]
  cases getenv p.environ "LC_NUMERIC" <;> rfl

/-! ## Lemmas on the recorded calls -/

theorem main_recording_eq {ω : Type} (sys : Platform ω) (argc : Int) (argv : List String)
    (w : ω) :
    (main sys.recording argc argv ([], w)).status = (main sys argc argv w).status ∧
    (main sys.recording argc argv ([], w)).final.2 = (main sys argc argv w).final :=
  ⟨rfl, rfl⟩

theorem mainCalls_eq {σ : Type} (installed : String → Bool) (fw : Framework σ)
    (argc : Int) (argv : List String) (p : Process) (s : σ) :
    mainCalls installed fw argc argv p s =
      [ ⟨.setenv "LC_NUMERIC" "C" 0, (p, s)⟩,
        ⟨.setlocale_LC_NUMERIC "C", ((setenv "LC_NUMERIC" "C" 0 p).2, s)⟩,
        ⟨.my_application_new, (localeSetup installed p, s)⟩,
        ⟨.g_application_run (fw.my_application_new (localeSetup installed p, s)).1 argc argv,
          (fw.my_application_new (localeSetup installed p, s)).2⟩,
        ⟨.autoptr_cleanup (fw.my_application_new (localeSetup installed p, s)).1,
          (fw.g_application_run (fw.my_application_new (localeSetup installed p, s)).1
            argc argv (fw.my_application_new (localeSetup installed p, s)).2).2⟩ ] :=
  rfl

/-! ## The entry point `main` -/

/-- C2: the locale setup of `main` writes the environment without
overwriting.  A value that `LC_NUMERIC` already has is its value afterwards;
when it is unset its value afterwards is `"C"`; every other variable reads as
before.  The call of `setenv` succeeds, and the state so reached is the one
in which `main` first enters the framework. -/
theorem main_setenv_no_overwrite {σ : Type} (installed : String → Bool)
    (fw : Framework σ) (argc : Int) (argv : List String) (p : Process) (s : σ) :
    (∀ v, getenv p.environ "LC_NUMERIC" = some v →
      getenv (localeSetup installed p).environ "LC_NUMERIC" = some v) ∧
    (getenv p.environ "LC_NUMERIC" = none →
      getenv (localeSetup installed p).environ "LC_NUMERIC" = some "C") ∧
    (∀ name, name ≠ "LC_NUMERIC" →
      getenv (localeSetup installed p).environ name = getenv p.environ name) ∧
    (setenv "LC_NUMERIC" "C" 0 p).1 = 0 ∧
    (mainCalls installed fw argc argv p s)[2]? =
      some ⟨.my_application_new, (localeSetup installed p, s)⟩ := by
  refine ⟨?_, ?_, ?_, ?_, ?_⟩
  · intro v hv
    rw [localeSetup_eq, hv]
    exact hv
  · intro hnone
    rw [localeSetup_eq, hnone]
    show getenv (p.environ ++ [("LC_NUMERIC", "C")]) "LC_NUMERIC" = some "C"
    rw [getenv_append_of_none _ _ _ hnone]
    rfl
  · intro name hname
    rw [localeSetup_eq]
    cases hcur : getenv p.environ "LC_NUMERIC" with
    | some v => rfl
    | none => exact getenv_append_other _ _ _ _ (Ne.symm hname)
  · rw [setenv_LC_NUMERIC_eq]
  · rfl

/-- C2 at a process started with `LC_NUMERIC=de_DE.UTF-8`: the variable
keeps that value and `LANG` reads as before. -/
theorem main_setenv_no_overwrite_witness :
    getenv sampleProcess.environ "LC_NUMERIC" = some "de_DE.UTF-8" ∧
    getenv (localeSetup (fun _ => false) sampleProcess).environ "LC_NUMERIC" =
      some "de_DE.UTF-8" ∧
    getenv (localeSetup (fun _ => false) sampleProcess).environ "LANG" =
      getenv sampleProcess.environ "LANG" :=
  ⟨by decide,
    (main_setenv_no_overwrite (fun _ => false) sampleFramework 1 ["quran_hadith"]
      sampleProcess 0).1 "de_DE.UTF-8" (by decide),
    (main_setenv_no_overwrite (fun _ => false) sampleFramework 1 ["quran_hadith"]
      sampleProcess 0).2.2.1 "LANG" (by decide)⟩

/-- C3: the value `main` returns is the value `g_application_run` returns.
That function is called once, on the pointer that the one call of
`my_application_new` returned and on the caller's `argc` and `argv`, in the
state that call left. -/
theorem main_returns_run_status {σ : Type} (installed : String → Bool)
    (fw : Framework σ) (argc : Int) (argv : List String) (p : Process) (s : σ) :
    (main (linux installed fw) argc argv (p, s)).status =
      (fw.g_application_run (fw.my_application_new (localeSetup installed p, s)).1
        argc argv (fw.my_application_new (localeSetup installed p, s)).2).1 ∧
    ((mainCalls installed fw argc argv p s).map Event.call).filter Call.isRun =
      [.g_application_run (fw.my_application_new (localeSetup installed p, s)).1 argc argv] ∧
    ((mainCalls installed fw argc argv p s).map Event.call).count .my_application_new = 1 ∧
    (mainCalls installed fw argc argv p s)[3]? =
      some ⟨.g_application_run (fw.my_application_new (localeSetup installed p, s)).1
        argc argv, (fw.my_application_new (localeSetup installed p, s)).2⟩ := by
  refine ⟨rfl, ?_, ?_, rfl⟩
  · rw [mainCalls_eq]
    rfl
  · rw [mainCalls_eq]
    simp

/-- C6: the calls the platform receives from `main` start with
`setenv("LC_NUMERIC", "C", 0)`, received in the initial state, then
`setlocale(LC_NUMERIC, "C")`, received in the state `setenv` left.  Every
later call goes to the framework; the first of them is `my_application_new`,
received in the state the locale setup left, whose numeric locale is `"C"`,
and `g_application_run` is among them.  No framework call is received before
these two. -/
theorem main_locale_setup_precedes_framework {σ : Type} (installed : String → Bool)
    (fw : Framework σ) (argc : Int) (argv : List String) (p : Process) (s : σ) :
    ∃ rest : List (Event (Process × σ)),
      mainCalls installed fw argc argv p s =
        ⟨.setenv "LC_NUMERIC" "C" 0, (p, s)⟩ ::
          ⟨.setlocale_LC_NUMERIC "C", ((setenv "LC_NUMERIC" "C" 0 p).2, s)⟩ :: rest ∧
      rest.head? = some ⟨.my_application_new, (localeSetup installed p, s)⟩ ∧
      (localeSetup installed p).lc_numeric = "C" ∧
      (∀ ev ∈ rest, ev.call.isFramework = true) ∧
      (∃ ev ∈ rest, ev.call.isRun = true) ∧
      (∀ i ev, (mainCalls installed fw argc argv p s)[i]? = some ev →
        ev.call.isFramework = true → 2 ≤ i) := by
  have hC : (localeSetup installed p).lc_numeric = "C" := by rw [localeSetup_eq]
  rw [mainCalls_eq]
  refine ⟨[⟨.my_application_new, (localeSetup installed p, s)⟩,
      ⟨.g_application_run (fw.my_application_new (localeSetup installed p, s)).1 argc argv,
        (fw.my_application_new (localeSetup installed p, s)).2⟩,
      ⟨.autoptr_cleanup (fw.my_application_new (localeSetup installed p, s)).1,
        (fw.g_application_run (fw.my_application_new (localeSetup installed p, s)).1
          argc argv (fw.my_application_new (localeSetup installed p, s)).2).2⟩],
    rfl, rfl, hC, ?_,
    ⟨⟨.g_application_run (fw.my_application_new (localeSetup installed p, s)).1 argc argv,
      (fw.my_application_new (localeSetup installed p, s)).2⟩, by simp, rfl⟩, ?_⟩
  · intro ev hev
    simp only [List.mem_cons, List.mem_singleton, List.not_mem_nil, or_false] at hev
    rcases hev with rfl | rfl | rfl <;> rfl
  · intro i ev hi hfw
    match i, hi with
    | 0, hi =>
      simp only [List.getElem?_cons_zero, Option.some.injEq] at hi
      subst hi
      simp [Call.isFramework] at hfw
    | 1, hi =>
      simp only [List.getElem?_cons_succ, List.getElem?_cons_zero, Option.some.injEq] at hi
      subst hi
      simp [Call.isFramework] at hfw
    | n + 2, _ => omega

/-- C7: the locale setup of `main` is idempotent: run twice it leaves the
same environment and the same numeric locale as run once. -/
theorem localeSetup_idempotent (installed : String → Bool) (p : Process) :
    localeSetup installed (localeSetup installed p) = localeSetup installed p := by
  have hset : ∃ v, getenv (localeSetup installed p).environ "LC_NUMERIC" = some v := by
    rw [localeSetup_eq]
    cases hcur : getenv p.environ "LC_NUMERIC" with
    | some v => exact ⟨v, hcur⟩
    | none =>
      refine ⟨"C", ?_⟩
      show getenv (p.environ ++ [("LC_NUMERIC", "C")]) "LC_NUMERIC" = some "C"
      rw [getenv_append_of_none _ _ _ hcur]
      rfl
  obtain ⟨v, hv⟩ := hset
  rw [localeSetup_eq installed (localeSetup installed p), hv]
  rw [localeSetup_eq]

/-! ## The registration stub `RegisterPlugins` -/

theorem registrations_append_pair {ρ : Type} (n : String) (b : ρ) (h : Nat) (e : Entry)
    (h2 : Nat) (c : ρ) : ∀ l : List (RegCall ρ),
    registrations (l ++ [.GetRegistrarForPlugin n b h, .RegisterWithRegistrar e h2 c]) =
      (registrations l).map (fun rs => rs ++ [⟨n, b, h, e, h2, c⟩])
  | [] => rfl
  | [.GetRegistrarForPlugin _ _ _] => rfl
  | .RegisterWithRegistrar _ _ _ :: _ => rfl
  | .GetRegistrarForPlugin _ _ _ :: .GetRegistrarForPlugin _ _ _ :: _ => rfl
  | .GetRegistrarForPlugin n1 b1 h1 :: .RegisterWithRegistrar e1 p1 c1 :: rest => by
    have ih := registrations_append_pair n b h e h2 c rest
    show (registrations (rest ++ [.GetRegistrarForPlugin n b h,
        .RegisterWithRegistrar e h2 c])).map
          (fun rs => (⟨n1, b1, h1, e1, p1, c1⟩ : Registration ρ) :: rs) =
      ((registrations rest).map
        (fun rs => (⟨n1, b1, h1, e1, p1, c1⟩ : Registration ρ) :: rs)).map
          (fun rs => rs ++ [⟨n, b, h, e, h2, c⟩])
    rw [ih]
    cases registrations rest <;> rfl

theorem requestedNames_append_pair {ρ : Type} (n : String) (b : ρ) (h : Nat) (e : Entry)
    (h2 : Nat) (c : ρ) (l : List (RegCall ρ)) :
    requestedNames (l ++ [.GetRegistrarForPlugin n b h, .RegisterWithRegistrar e h2 c]) =
      requestedNames l ++ [n] := by
  induction l with
  | nil => rfl
  | cons x rest ih => cases x <;> simp [requestedNames, ih]

theorem calledEntries_append_pair {ρ : Type} (n : String) (b : ρ) (h : Nat) (e : Entry)
    (h2 : Nat) (c : ρ) (l : List (RegCall ρ)) :
    calledEntries (l ++ [.GetRegistrarForPlugin n b h, .RegisterWithRegistrar e h2 c]) =
      calledEntries l ++ [e] := by
  induction l with
  | nil => rfl
  | cons x rest ih => cases x <;> simp [calledEntries, ih]

theorem threadedTo_append {ρ : Type} (host : Host ρ) (r : Registration ρ) :
    ∀ (rs : List (Registration ρ)) (s t : ρ), threadedTo host s rs t →
      r.before = t → r.obtained = (host.GetRegistrarForPlugin r.name t).1 →
      r.passed = r.obtained → r.calledIn = (host.GetRegistrarForPlugin r.name t).2 →
      threadedTo host s (rs ++ [r]) (host.RegisterWithRegistrar r.entry r.passed r.calledIn)
  | [], s, t, hrs, hb, ho, hp, hc => by
    have ht : t = s := hrs
    subst ht
    exact ⟨hb, ho, hp, hc, rfl⟩
  | x :: rest, s, t, hrs, hb, ho, hp, hc =>
    ⟨hrs.1, hrs.2.1, hrs.2.2.1, hrs.2.2.2.1,
      threadedTo_append host r rest _ t hrs.2.2.2.2 hb ho hp hc⟩

theorem threadedTo_mem {ρ : Type} (host : Host ρ) :
    ∀ (rs : List (Registration ρ)) (s t : ρ), threadedTo host s rs t →
      ∀ r ∈ rs, r.passed = r.obtained ∧
        r.obtained = (host.GetRegistrarForPlugin r.name r.before).1 ∧
        r.calledIn = (host.GetRegistrarForPlugin r.name r.before).2
  | [], _, _, _ => fun r hr => by simp at hr
  | x :: rest, s, t, hrs => fun r hr => by
    rcases List.mem_cons.mp hr with rfl | hin
    · obtain ⟨hb, ho, hp, hc, _⟩ := hrs
      rw [hb]
      exact ⟨hp, ho, hc⟩
    · exact threadedTo_mem host rest _ t hrs.2.2.2.2 r hin

theorem registerWith_recording {ρ : Type} (host : Host ρ) (entry : Entry) (name : String)
    (w : List (RegCall ρ) × ρ) :
    registerWith host.recording entry name w =
      (w.1 ++ [.GetRegistrarForPlugin name w.2 (host.GetRegistrarForPlugin name w.2).1,
          .RegisterWithRegistrar entry (host.GetRegistrarForPlugin name w.2).1
            (host.GetRegistrarForPlugin name w.2).2],
        registerWith host entry name w.2) := by
  show (w.1 ++ [RegCall.GetRegistrarForPlugin name w.2 (host.GetRegistrarForPlugin name w.2).1]
      ++ [RegCall.RegisterWithRegistrar entry (host.GetRegistrarForPlugin name w.2).1
        (host.GetRegistrarForPlugin name w.2).2], registerWith host entry name w.2) = _
  rw [List.append_assoc]
  rfl

theorem Recorded_registerWith {ρ : Type} (host : Host ρ) (s : ρ) (entry : Entry)
    (name : String) (hsym : entry.symbol = name ++ "RegisterWithRegistrar")
    (w : List (RegCall ρ) × ρ) (t : ρ) (ns : List String) (es : List Entry)
    (h : Recorded host s w t ns es) :
    Recorded host s (registerWith host.recording entry name w)
      (registerWith host entry name t) (ns ++ [name]) (es ++ [entry]) := by
  obtain ⟨hw, hns, hes, rs, hrs, hthread, hnames, hentries, hsyms⟩ := h
  rw [registerWith_recording]
  refine ⟨by rw [hw], ?_, ?_,
    rs ++ [⟨name, t, (host.GetRegistrarForPlugin name t).1, entry,
      (host.GetRegistrarForPlugin name t).1, (host.GetRegistrarForPlugin name t).2⟩],
    ?_, ?_, ?_, ?_, ?_⟩
  · show requestedNames (w.1 ++ _) = ns ++ [name]
    rw [requestedNames_append_pair, hns]
  · show calledEntries (w.1 ++ _) = es ++ [entry]
    rw [calledEntries_append_pair, hes]
  · show registrations (w.1 ++ _) = _
    rw [registrations_append_pair, hrs, hw]
    rfl
  · exact threadedTo_append host _ rs s t hthread rfl rfl rfl rfl
  · rw [List.map_append, hnames]
    rfl
  · rw [List.map_append, hentries]
    rfl
  · intro r hr
    rcases List.mem_append.mp hr with hin | hin
    · exact hsyms r hin
    · rw [List.mem_singleton.mp hin]
      exact hsym

theorem RegisterPlugins_recorded {ρ : Type} (host : Host ρ) (s : ρ) :
    Recorded host s (RegisterPlugins host.recording ([], s)) (RegisterPlugins host s)
      ["BitsdojoWindowPlugin", "ConnectivityPlusWindowsPlugin", "DesktopWindowPlugin",
        "HotkeyManagerWindowsPluginCApi", "PlatformDeviceIdWindowsPlugin",
        "ScreenRetrieverWindowsPluginCApi", "SharePlusWindowsPluginCApi",
        "UrlLauncherWindows", "WindowManagerPlugin"]
      Entry.all := by
  have h0 : Recorded host s ([], s) s [] [] :=
    ⟨rfl, rfl, rfl, [], rfl, rfl, rfl, rfl, fun r hr => by simp at hr⟩
  have h1 := Recorded_registerWith host s .BitsdojoWindowPluginRegisterWithRegistrar
    "BitsdojoWindowPlugin" rfl _ _ _ _ h0
  have h2 := Recorded_registerWith host s .ConnectivityPlusWindowsPluginRegisterWithRegistrar
    "ConnectivityPlusWindowsPlugin" rfl _ _ _ _ h1
  have h3 := Recorded_registerWith host s .DesktopWindowPluginRegisterWithRegistrar
    "DesktopWindowPlugin" rfl _ _ _ _ h2
  have h4 := Recorded_registerWith host s .HotkeyManagerWindowsPluginCApiRegisterWithRegistrar
    "HotkeyManagerWindowsPluginCApi" rfl _ _ _ _ h3
  have h5 := Recorded_registerWith host s .PlatformDeviceIdWindowsPluginRegisterWithRegistrar
    "PlatformDeviceIdWindowsPlugin" rfl _ _ _ _ h4
  have h6 := Recorded_registerWith host s .ScreenRetrieverWindowsPluginCApiRegisterWithRegistrar
    "ScreenRetrieverWindowsPluginCApi" rfl _ _ _ _ h5
  have h7 := Recorded_registerWith host s .SharePlusWindowsPluginCApiRegisterWithRegistrar
    "SharePlusWindowsPluginCApi" rfl _ _ _ _ h6
  have h8 := Recorded_registerWith host s .UrlLauncherWindowsRegisterWithRegistrar
    "UrlLauncherWindows" rfl _ _ _ _ h7
  exact Recorded_registerWith host s .WindowManagerPluginRegisterWithRegistrar
    "WindowManagerPlugin" rfl _ _ _ _ h8

/-- C4: for every registry and every state of it, the names that the
registry receives through `GetRegistrarForPlugin` during `RegisterPlugins`
are, in order, the nine plugin names of the stub and nothing else; no name
occurs twice; the nine entry points are each called, in the same order; and
the sequence of names is the same from any other state of any registry. -/
theorem RegisterPlugins_requested_names {ρ : Type} (host : Host ρ) (s : ρ) :
    requestedNames (registerCalls host s) =
      ["BitsdojoWindowPlugin", "ConnectivityPlusWindowsPlugin", "DesktopWindowPlugin",
        "HotkeyManagerWindowsPluginCApi", "PlatformDeviceIdWindowsPlugin",
        "ScreenRetrieverWindowsPluginCApi", "SharePlusWindowsPluginCApi",
        "UrlLauncherWindows", "WindowManagerPlugin"] ∧
    (requestedNames (registerCalls host s)).Nodup ∧
    (requestedNames (registerCalls host s)).length = 9 ∧
    calledEntries (registerCalls host s) = Entry.all ∧
    (∀ (τ : Type) (other : Host τ) (t : τ),
      requestedNames (registerCalls other t) = requestedNames (registerCalls host s)) := by
  have hnames : ∀ (τ : Type) (other : Host τ) (t : τ),
      requestedNames (registerCalls other t) =
        ["BitsdojoWindowPlugin", "ConnectivityPlusWindowsPlugin", "DesktopWindowPlugin",
          "HotkeyManagerWindowsPluginCApi", "PlatformDeviceIdWindowsPlugin",
          "ScreenRetrieverWindowsPluginCApi", "SharePlusWindowsPluginCApi",
          "UrlLauncherWindows", "WindowManagerPlugin"] :=
    fun τ other t => (RegisterPlugins_recorded other t).2.1
  refine ⟨hnames ρ host s, ?_, ?_, (RegisterPlugins_recorded host s).2.2.1, ?_⟩
  · rw [hnames ρ host s]
    decide
  · rw [hnames ρ host s]
    rfl
  · intro τ other t
    rw [hnames τ other t, hnames ρ host s]

/-- C5: the calls the host receives during `RegisterPlugins` are a sequence
of registrations in which each entry point is passed the handle that
`GetRegistrarForPlugin` returned just before, for the name that the entry
point's symbol extends by `RegisterWithRegistrar`; each of the nine entry
points is called exactly once; and recording the calls does not change the
state `RegisterPlugins` ends in. -/
theorem RegisterPlugins_registrar_of_own_name {ρ : Type} (host : Host ρ) (s : ρ) :
    ∃ rs, registrations (registerCalls host s) = some rs ∧
      (∀ r ∈ rs, r.passed = r.obtained ∧
        r.obtained = (host.GetRegistrarForPlugin r.name r.before).1 ∧
        r.entry.symbol = r.name ++ "RegisterWithRegistrar") ∧
      (∀ e : Entry, (rs.map (fun r => r.entry)).count e = 1) ∧
      (∀ e : Entry, (calledEntries (registerCalls host s)).count e = 1) ∧
      (RegisterPlugins host.recording ([], s)).2 = RegisterPlugins host s := by
  obtain ⟨hfinal, _, hcalled, rs, hrs, hthread, _, hentries, hsyms⟩ :=
    RegisterPlugins_recorded host s
  refine ⟨rs, hrs, fun r hr => ?_, ?_, ?_, hfinal⟩
  · obtain ⟨hp, ho, _⟩ := threadedTo_mem host rs s _ hthread r hr
    exact ⟨hp, ho, hsyms r hr⟩
  · intro e
    rw [hentries]
    cases e <;> decide
  · intro e
    show (calledEntries (RegisterPlugins host.recording ([], s)).1).count e = 1
    rw [hcalled]
    cases e <;> decide

/-- C8: the calls the host receives during `RegisterPlugins` alternate a
request for a registrar and the registration call that uses the handle just
obtained, nine times, along one thread of states from the initial state to
the final one: each entry point is called in the state its request left, and
the next request is made in the state that call left.  The requested names
are in strictly increasing lexicographic order. -/
theorem RegisterPlugins_alternates_in_name_order {ρ : Type} (host : Host ρ) (s : ρ) :
    ∃ rs, registrations (registerCalls host s) = some rs ∧
      rs.length = 9 ∧
      threadedTo host s rs (RegisterPlugins host s) ∧
      (∀ r ∈ rs, r.passed = r.obtained ∧
        r.obtained = (host.GetRegistrarForPlugin r.name r.before).1 ∧
        r.calledIn = (host.GetRegistrarForPlugin r.name r.before).2) ∧
      (rs.map (fun r => r.name)).Pairwise (fun a b => a < b) ∧
      rs.map (fun r => r.name) = requestedNames (registerCalls host s) := by
  obtain ⟨_, hreq, _, rs, hrs, hthread, hnames, hentries, _⟩ :=
    RegisterPlugins_recorded host s
  refine ⟨rs, hrs, ?_, hthread, threadedTo_mem host rs s _ hthread, ?_, ?_⟩
  · have hlen := congrArg List.length hentries
    simpa [Entry.all] using hlen
  · rw [hnames]
    simp only [List.pairwise_cons, List.mem_cons, List.mem_singleton, forall_eq_or_imp,
      forall_eq, String.lt_iff_toList_lt]
    decide
  · rw [hnames]
    exact hreq.symm

end QuranHadith
